import Mathlib

/-!
# Verification of the OAuth 2.0 PKCE flow core (reporting-workspace)

This file gives a shallow embedding of the OAuth state codec, PKCE
generation, callback validation and token-exchange classification of the
repository, and proves or refutes the frozen claims about them.

Strings are modelled as lists of Unicode code points (`List Nat`); byte
strings as lists of bytes (`List Nat`, each `< 256`).  The serialized JSON
record produced by Python's `json.dumps` (with its default
`ensure_ascii=True`) is pure ASCII, so on every encoder output the UTF-8
byte sequence coincides with the code-point sequence and the two readings
agree.
-/

set_option maxRecDepth 100000

deriving instance DecidableEq for Except

/-- Code points of a Lean string literal, used to write concrete strings of
the source as `List Nat` values. -/
def strCP (s : String) : List Nat := s.toList.map Char.toNat

/-- Valid Unicode scalar value: what a Python `str` position (excluding the
lone surrogates that `str.encode` rejects) and a Lean `Char` can hold. -/
def isValidCP (n : Nat) : Bool := n < 55296 || (57344 ≤ n && n < 1114112)

/-- Lower-case hexadecimal digit of `n % 16`, as a code point
(`0`–`9`, `a`–`f`), as produced by Python's `"%04x"` formatting. -/
def hexDigit (n : Nat) : Nat := if n < 10 then 48 + n else 87 + n

/-- Numeric value of a hexadecimal digit code point; accepts the
lower-case and upper-case letters like Python's `json` scanner. -/
def hexVal (c : Nat) : Option Nat :=
  if 48 ≤ c ∧ c ≤ 57 then some (c - 48)
  else if 97 ≤ c ∧ c ≤ 102 then some (c - 87)
  else if 65 ≤ c ∧ c ≤ 70 then some (c - 55)
  else none

/-- Four-digit lower-case hex rendering of `n < 0x10000`
(the `XXXX` of a JSON `\uXXXX` escape). -/
def hex4 (n : Nat) : List Nat :=
  [hexDigit (n / 4096 % 16), hexDigit (n / 256 % 16), hexDigit (n / 16 % 16), hexDigit (n % 16)]

/-- JSON string escaping of one code point, after Python `json.dumps` with
its default `ensure_ascii=True`: `"` and `\` are backslash-escaped, the
short escapes `\b \t \n \f \r` are used, other control characters and every
non-ASCII code point become `\uXXXX` (a surrogate pair above `0xFFFF`). -/
def escapeCP (c : Nat) : List Nat :=
  if c = 34 then [92, 34]
  else if c = 92 then [92, 92]
  else if c = 8 then [92, 98]
  else if c = 9 then [92, 116]
  else if c = 10 then [92, 110]
  else if c = 12 then [92, 102]
  else if c = 13 then [92, 114]
  else if c < 32 then 92 :: 117 :: hex4 c
  else if c < 127 then [c]
  else if c < 65536 then 92 :: 117 :: hex4 c
  else 92 :: 117 :: hex4 (55296 + (c - 65536) / 1024) ++ 92 :: 117 :: hex4 (56320 + (c - 65536) % 1024)

/-- JSON escaping of a whole string (code-point list). -/
def escapeStr : List Nat → List Nat
  | [] => []
  | c :: cs => escapeCP c ++ escapeStr cs

/-- Digit-producing loop of `decimal`, structurally recursive on a fuel
bound so that it reduces in the kernel; `fuel` only needs to dominate the
digit count. -/
def decimalAux : Nat → Nat → List Nat
  | 0, n => [48 + n % 10]
  | fuel + 1, n => if n < 10 then [48 + n] else decimalAux fuel (n / 10) ++ [48 + n % 10]

/-- Decimal rendering of a natural number, most significant digit first,
as `json.dumps` prints the integer `timestamp` field. -/
def decimal (n : Nat) : List Nat := decimalAux n n

/-- Decimal digit test on a code point. -/
def isDigitCP (c : Nat) : Bool := 48 ≤ c && c ≤ 57

/-- Value of a list of decimal digit code points (most significant first). -/
def digitsToNat (ds : List Nat) : Nat := ds.foldl (fun a d => a * 10 + (d - 48)) 0

/-- JSON values occurring in the state record: strings and (non-negative)
integers, the only value shapes `json.dumps` emits for the `state_data`
dictionaries of the source. -/
inductive JVal where
  | jstr (s : List Nat)
  | jnum (n : Nat)
deriving DecidableEq

/-- Flow state carried through the OAuth round trip.  Field names follow
the source's `state_data` dictionary (`userId`, `platform`, `timestamp`,
`nonce` and the optional `scope`); the spec calls the first three
`subjectId`, `integration` and `issuedAt`. -/
structure FlowState where
  userId : List Nat
  platform : List Nat
  timestamp : Nat
  nonce : List Nat
  scope : Option (List Nat)
deriving DecidableEq

/-- Serialization of one JSON value. -/
def serializeVal : JVal → List Nat
  | .jstr s => 34 :: escapeStr s ++ [34]
  | .jnum n => decimal n

/-- Serialization of one `"key": value` member, with the `": "` separator
`json.dumps` uses by default. -/
def serializeMember (m : List Nat × JVal) : List Nat :=
  34 :: escapeStr m.1 ++ [34, 58, 32] ++ serializeVal m.2

/-- Serialization of a member list, separated by `", "`
(the default `json.dumps` item separator). -/
def serializeMembers : List (List Nat × JVal) → List Nat
  | [] => []
  | [m] => serializeMember m
  | m :: ms => serializeMember m ++ [44, 32] ++ serializeMembers ms

/-- Members of the serialized state record, in the insertion order of the
source's `state_data` dictionaries: `userId`, `platform`, `timestamp`,
`nonce`, then `scope` when present. -/
def membersOf (s : FlowState) : List (List Nat × JVal) :=
  [(strCP ("userId"), .jstr s.userId),
   (strCP ("platform"), .jstr s.platform),
   (strCP ("timestamp"), .jnum s.timestamp),
   (strCP ("nonce"), .jstr s.nonce)] ++
  (match s.scope with
   | some sc => [(strCP ("scope"), .jstr sc)]
   | none => [])

/-- Embedding of `json.dumps(state_data)`: the canonical record text, as a
code-point list (pure ASCII by construction of `escapeCP`). -/
def dumps (s : FlowState) : List Nat :=
  123 :: serializeMembers (membersOf s) ++ [125]

/-- JSON whitespace skipping (space, tab, newline, carriage return). -/
def skipWS : List Nat → List Nat
  | c :: rest => if c = 32 || c = 9 || c = 10 || c = 13 then skipWS rest else c :: rest
  | [] => []

/-- Scanner for four hexadecimal digits, as in the `XXXX` of `\\uXXXX`. -/
def parseHex4 : List Nat → Option (Nat × List Nat)
  | h1 :: h2 :: h3 :: h4 :: rest =>
    match hexVal h1, hexVal h2, hexVal h3, hexVal h4 with
    | some v1, some v2, some v3, some v4 => some (((v1 * 16 + v2) * 16 + v3) * 16 + v4, rest)
    | _, _, _, _ => none
  | _ => none

/-- Scanner for the digits of a `\\u` escape, pairing a high surrogate
with the following `\\uXXXX` low surrogate (and rejecting lone
surrogates, which cannot denote a scalar value). -/
def parseUEscape (cs : List Nat) : Option (Nat × List Nat) :=
  match parseHex4 cs with
  | none => none
  | some (n, rest) =>
    if 55296 ≤ n ∧ n < 56320 then
      match rest with
      | 92 :: 117 :: rest2 =>
        match parseHex4 rest2 with
        | some (m, rest3) =>
          if 56320 ≤ m ∧ m < 57344 then some (65536 + (n - 55296) * 1024 + (m - 56320), rest3)
          else none
        | none => none
      | _ => none
    else if 56320 ≤ n ∧ n < 57344 then none
    else some (n, rest)

/-- Scanner for the character after a backslash inside a JSON string
literal: the short escapes and `\\u`, as `json.loads` accepts. -/
def parseEscape : List Nat → Option (Nat × List Nat)
  | [] => none
  | e :: rest =>
    if e = 34 then some (34, rest)
    else if e = 92 then some (92, rest)
    else if e = 47 then some (47, rest)
    else if e = 98 then some (8, rest)
    else if e = 102 then some (12, rest)
    else if e = 110 then some (10, rest)
    else if e = 114 then some (13, rest)
    else if e = 116 then some (9, rest)
    else if e = 117 then parseUEscape rest
    else none

/-- JSON string-literal body scanner, entered after the opening quote:
consumes up to the closing quote, resolving backslash escapes and
rejecting unescaped control characters, as the strict `json.loads`
scanner does.  Returns the decoded code points and the remaining input.
Structurally recursive on a fuel bound (one unit per decoded code point;
any bound beyond the decoded length works). -/
def parseStringBody : Nat → List Nat → Option (List Nat × List Nat)
  | 0, _ => none
  | _ + 1, [] => none
  | fuel + 1, c :: rest =>
    if c = 34 then some ([], rest)
    else if c = 92 then
      match parseEscape rest with
      | some (cp, rest2) => (parseStringBody fuel rest2).map (fun p => (cp :: p.1, p.2))
      | none => none
    else if c < 32 then none
    else (parseStringBody fuel rest).map (fun p => (c :: p.1, p.2))

/-- JSON string-literal scanner with its fuel instantiated from the input
length (always sufficient, since each decoded code point consumes input).
-/
def parseJString (cs : List Nat) : Option (List Nat × List Nat) :=
  parseStringBody (cs.length + 1) cs

/-- Scanner for a non-negative decimal integer literal. -/
def parseNat (cs : List Nat) : Option (Nat × List Nat) :=
  match cs.takeWhile isDigitCP with
  | [] => none
  | ds => some (digitsToNat ds, cs.dropWhile isDigitCP)

/-- Scanner for one JSON value of the shapes the state record contains
(string or non-negative integer). -/
def parseValue : List Nat → Option (JVal × List Nat)
  | [] => none
  | c :: rest =>
    if c = 34 then (parseJString rest).map (fun p => (JVal.jstr p.1, p.2))
    else if isDigitCP c then (parseNat (c :: rest)).map (fun p => (JVal.jnum p.1, p.2))
    else none

/-- Scanner for the member list of a JSON object, entered after the
opening brace (and leading whitespace) on a non-`}` input; consumes up to
and including the closing brace.  `fuel` bounds the number of members and
only needs to exceed it. -/
def parseMembers : Nat → List Nat → Option (List (List Nat × JVal) × List Nat)
  | 0, _ => none
  | fuel + 1, cs =>
    match cs with
    | [] => none
    | c0 :: rest =>
      if c0 = 34 then
        match parseJString rest with
        | some (key, r1) =>
          match skipWS r1 with
          | [] => none
          | c1 :: r2 =>
            if c1 = 58 then
              match parseValue (skipWS r2) with
              | some (v, r3) =>
                match skipWS r3 with
                | [] => none
                | c2 :: r4 =>
                  if c2 = 44 then
                    (parseMembers fuel (skipWS r4)).map (fun p => ((key, v) :: p.1, p.2))
                  else if c2 = 125 then some ([(key, v)], r4)
                  else none
              | none => none
            else none
        | none => none
      else none

/-- Scanner for one JSON object, returning its members (in textual order)
and the remaining input. -/
def parseObject (bs : List Nat) : Option (List (List Nat × JVal) × List Nat) :=
  match skipWS bs with
  | [] => none
  | c0 :: rest =>
    if c0 = 123 then
      match skipWS rest with
      | [] => none
      | c1 :: r2 =>
        if c1 = 125 then some ([], r2)
        else parseMembers ((c1 :: r2).length + 1) (c1 :: r2)
    else none

/-- Embedding of `json.loads` restricted to the record grammar of the
state token: one flat object whose values are strings or non-negative
integers, with nothing but whitespace after it. -/
def loads (bs : List Nat) : Option (List (List Nat × JVal)) :=
  match parseObject bs with
  | some (ms, rest) => if skipWS rest = [] then some ms else none
  | none => none

/-- Code points of the standard Base64 alphabet (`base64.b64encode`). -/
def b64alpha : List Nat :=
  strCP ("ABCDEFGHIJKLMNOPQRSTUVWXYZabcdefghijklmnopqrstuvwxyz0123456789+/")

/-- Code points of the URL-safe Base64 alphabet
(`base64.urlsafe_b64encode`), `-` and `_` replacing `+` and `/`. -/
def b64urlAlpha : List Nat :=
  strCP ("ABCDEFGHIJKLMNOPQRSTUVWXYZabcdefghijklmnopqrstuvwxyz0123456789-_")

/-- Alphabet character for a sextet (out-of-range indices, which never
arise from byte input, fall back to `A`). -/
def b64charW (alpha : List Nat) (n : Nat) : Nat := alpha.getD n 65

/-- Position of a code point in an alphabet. -/
def idxOf (c : Nat) : List Nat → Option Nat
  | [] => none
  | a :: as => if a = c then some 0 else (idxOf c as).map (· + 1)

/-- Base64 encoding of a byte list over a given alphabet, three bytes to
four characters, with `=` (61) padding on the final partial group — the
byte-level content of CPython's `binascii.b2a_base64`. -/
def b64encodeW (alpha : List Nat) : List Nat → List Nat
  | [] => []
  | [b1] => [b64charW alpha (b1 / 4), b64charW alpha (b1 % 4 * 16), 61, 61]
  | [b1, b2] =>
    [b64charW alpha (b1 / 4), b64charW alpha (b1 % 4 * 16 + b2 / 16),
     b64charW alpha (b2 % 16 * 4), 61]
  | b1 :: b2 :: b3 :: rest =>
    b64charW alpha (b1 / 4) :: b64charW alpha (b1 % 4 * 16 + b2 / 16) ::
    b64charW alpha (b2 % 16 * 4 + b3 / 64) :: b64charW alpha (b3 % 64) ::
    b64encodeW alpha rest

/-- Embedding of `base64.b64encode(...)` (standard alphabet, padded). -/
def b64encode (bs : List Nat) : List Nat := b64encodeW b64alpha bs

/-- Base64 decoding over a given alphabet: four characters to three bytes,
`=` padding accepted only on the final group.  Inputs that are not
well-formed Base64 (wrong length, characters outside the alphabet,
misplaced padding) are rejected with `none`, the failure the source's
`base64.b64decode` call raises as `binascii.Error`. -/
def b64decodeW (alpha : List Nat) : List Nat → Option (List Nat)
  | [] => some []
  | c1 :: c2 :: c3 :: c4 :: rest =>
    if c3 = 61 ∧ c4 = 61 ∧ rest = [] then
      match idxOf c1 alpha, idxOf c2 alpha with
      | some s1, some s2 => some [s1 * 4 + s2 / 16]
      | _, _ => none
    else if c4 = 61 ∧ rest = [] then
      match idxOf c1 alpha, idxOf c2 alpha, idxOf c3 alpha with
      | some s1, some s2, some s3 => some [s1 * 4 + s2 / 16, s2 % 16 * 16 + s3 / 4]
      | _, _, _ => none
    else
      match idxOf c1 alpha, idxOf c2 alpha, idxOf c3 alpha, idxOf c4 alpha with
      | some s1, some s2, some s3, some s4 =>
        (b64decodeW alpha rest).map
          (fun bs => (s1 * 4 + s2 / 16) :: (s2 % 16 * 16 + s3 / 4) :: (s3 % 4 * 64 + s4) :: bs)
      | _, _, _, _ => none
  | _ => none

/-- Embedding of `base64.b64decode(...)` (standard alphabet). -/
def b64decode (cs : List Nat) : Option (List Nat) := b64decodeW b64alpha cs

/-- Right-strip of `=` (61) characters, the `.rstrip('=')` of the
source's PKCE generation. -/
def rstripEq (l : List Nat) : List Nat := (l.reverse.dropWhile (fun c => c == 61)).reverse

/-- Embedding of
`base64.urlsafe_b64encode(...).decode('utf-8').rstrip('=')`: unpadded
URL-safe Base64. -/
def b64urlEncodeNoPad (bs : List Nat) : List Nat := rstripEq (b64encodeW b64urlAlpha bs)

/-- Embedding of the source's state encoding
`base64.b64encode(json.dumps(state_data).encode()).decode()`: serialize
the record, then standard padded Base64. -/
def encodeState (s : FlowState) : List Nat := b64encode (dumps s)

/-- Decode failures of the state codec, the `DecodeError` taxonomy of the
spec: transport-decoding failure, non-canonical record bytes, and a record
missing a required field. -/
inductive DecodeError where
  | MalformedEncoding
  | MalformedPayload
  | MissingRequiredField (name : List Nat)
deriving DecidableEq

/-- Last-wins key lookup in a parsed member list, matching the value a
later duplicate key overwrites into the Python `dict` `json.loads`
builds. -/
def lookupJ (ms : List (List Nat × JVal)) (k : List Nat) : Option JVal :=
  match ms with
  | [] => none
  | (k2, v) :: rest =>
    match lookupJ rest k with
    | some v2 => some v2
    | none => if k2 = k then some v else none

/-- Field extraction from the parsed record into a `FlowState`.  Modelled
from the spec: the spec's `decode` yields
`DecodeError{MissingRequiredField(name)}` when `subjectId` (`userId`) or
`integration` (`platform`) is absent and never substitutes defaults; the
source (`src/dev-tools`) only exhibits the raw `json.loads` dictionary, so
the typed extraction step is reconstructed from the spec's words.  The
remaining required fields (`timestamp`, `nonce`) are also demanded rather
than defaulted, and a field of the wrong shape makes the record
non-canonical (`MalformedPayload`). -/
def extractState (ms : List (List Nat × JVal)) : Except DecodeError FlowState :=
  match lookupJ ms (strCP ("userId")) with
  | none => .error (.MissingRequiredField (strCP ("userId")))
  | some (.jnum _) => .error .MalformedPayload
  | some (.jstr u) =>
    match lookupJ ms (strCP ("platform")) with
    | none => .error (.MissingRequiredField (strCP ("platform")))
    | some (.jnum _) => .error .MalformedPayload
    | some (.jstr p) =>
      match lookupJ ms (strCP ("timestamp")) with
      | none => .error (.MissingRequiredField (strCP ("timestamp")))
      | some (.jstr _) => .error .MalformedPayload
      | some (.jnum t) =>
        match lookupJ ms (strCP ("nonce")) with
        | none => .error (.MissingRequiredField (strCP ("nonce")))
        | some (.jnum _) => .error .MalformedPayload
        | some (.jstr n) =>
          match lookupJ ms (strCP ("scope")) with
          | none => .ok ⟨u, p, t, n, none⟩
          | some (.jnum _) => .error .MalformedPayload
          | some (.jstr sc) => .ok ⟨u, p, t, n, some sc⟩

/-- Embedding of the state decoding
`json.loads(base64.b64decode(state_b64).decode())` together with the
spec's error classification: a transport-decoding failure is
`MalformedEncoding`, bytes that are not a canonical record are
`MalformedPayload`, and a record lacking a required field is
`MissingRequiredField`. -/
def decodeState (t : List Nat) : Except DecodeError FlowState :=
  match b64decode t with
  | none => .error .MalformedEncoding
  | some bs =>
    match loads bs with
    | none => .error .MalformedPayload
    | some ms => extractState ms

/-- Truncation of a value to a 32-bit word. -/
def w32 (n : Nat) : Nat := n % 4294967296

/-- 32-bit right rotation. -/
def rotr (k x : Nat) : Nat := (x / 2 ^ k + x % 2 ^ k * 2 ^ (32 - k)) % 4294967296

/-- Logical right shift. -/
def shr (k x : Nat) : Nat := x / 2 ^ k

/-- SHA-256 `Ch` function (`(x AND y) XOR (NOT x AND z)` on 32 bits). -/
def ch (x y z : Nat) : Nat := (x &&& y) ^^^ ((4294967295 ^^^ x) &&& z)

/-- SHA-256 `Maj` function. -/
def maj (x y z : Nat) : Nat := (x &&& y) ^^^ (x &&& z) ^^^ (y &&& z)

/-- SHA-256 `Σ0`. -/
def bsig0 (x : Nat) : Nat := rotr 2 x ^^^ rotr 13 x ^^^ rotr 22 x

/-- SHA-256 `Σ1`. -/
def bsig1 (x : Nat) : Nat := rotr 6 x ^^^ rotr 11 x ^^^ rotr 25 x

/-- SHA-256 `σ0`. -/
def ssig0 (x : Nat) : Nat := rotr 7 x ^^^ rotr 18 x ^^^ shr 3 x

/-- SHA-256 `σ1`. -/
def ssig1 (x : Nat) : Nat := rotr 17 x ^^^ rotr 19 x ^^^ shr 10 x

/-- SHA-256 round constants (FIPS 180-4). -/
def sha256K : List Nat :=
  [1116352408, 1899447441, 3049323471, 3921009573, 961987163,
   1508970993, 2453635748, 2870763221, 3624381080, 310598401,
   607225278, 1426881987, 1925078388, 2162078206, 2614888103,
   3248222580, 3835390401, 4022224774, 264347078, 604807628,
   770255983, 1249150122, 1555081692, 1996064986, 2554220882,
   2821834349, 2952996808, 3210313671, 3336571891, 3584528711,
   113926993, 338241895, 666307205, 773529912, 1294757372,
   1396182291, 1695183700, 1986661051, 2177026350, 2456956037,
   2730485921, 2820302411, 3259730800, 3345764771, 3516065817,
   3600352804, 4094571909, 275423344, 430227734, 506948616,
   659060556, 883997877, 958139571, 1322822218, 1537002063,
   1747873779, 1955562222, 2024104815, 2227730452, 2361852424,
   2428436474, 2756734187, 3204031479, 3329325298]

/-- SHA-256 initial hash value (FIPS 180-4). -/
def sha256H0 : List Nat :=
  [1779033703, 3144134277, 1013904242, 2773480762, 1359893119,
   2600822924, 528734635, 1541459225]

/-- Big-endian 8-byte rendering of a length in bits. -/
def be64 (n : Nat) : List Nat :=
  [n / 2 ^ 56 % 256, n / 2 ^ 48 % 256, n / 2 ^ 40 % 256, n / 2 ^ 32 % 256,
   n / 2 ^ 24 % 256, n / 2 ^ 16 % 256, n / 2 ^ 8 % 256, n % 256]

/-- Big-endian 4-byte rendering of a 32-bit word. -/
def be32 (n : Nat) : List Nat := [n / 16777216 % 256, n / 65536 % 256, n / 256 % 256, n % 256]

/-- SHA-256 message padding: `0x80`, zeros to 56 mod 64, then the bit
length on 8 bytes. -/
def sha256pad (msg : List Nat) : List Nat :=
  msg ++ 128 :: List.replicate ((119 - msg.length % 64) % 64) 0 ++ be64 (8 * msg.length)

/-- Big-endian grouping of bytes into 32-bit words. -/
def toWords : List Nat → List Nat
  | b1 :: b2 :: b3 :: b4 :: rest => (((b1 * 256 + b2) * 256 + b3) * 256 + b4) :: toWords rest
  | _ => []

/-- SHA-256 message-schedule extension, appending `fuel` further words
(48 for a full schedule). -/
def extendW : Nat → List Nat → List Nat
  | 0, ws => ws
  | fuel + 1, ws =>
    extendW fuel (ws ++ [w32 (ssig1 (ws.getD (ws.length - 2) 0) + ws.getD (ws.length - 7) 0 +
      ssig0 (ws.getD (ws.length - 15) 0) + ws.getD (ws.length - 16) 0)])

/-- One SHA-256 compression round on the eight-word working state. -/
def compressWord (st : List Nat) (k w : Nat) : List Nat :=
  match st with
  | [a, b, c, d, e, f, g, h] =>
    (w32 (w32 (h + bsig1 e + ch e f g + k + w) + w32 (bsig0 a + maj a b c))) :: a :: b :: c ::
      (w32 (d + w32 (h + bsig1 e + ch e f g + k + w))) :: e :: f :: [g]
  | st => st

/-- The 64 compression rounds, consuming round constants and schedule
words in lockstep. -/
def compressLoop : List Nat → List Nat → List Nat → List Nat
  | k :: ks, w :: ws, st => compressLoop ks ws (compressWord st k w)
  | _, _, st => st

/-- Pointwise 32-bit addition of hash states. -/
def addStates : List Nat → List Nat → List Nat
  | a :: as, b :: bs => w32 (a + b) :: addStates as bs
  | _, _ => []

/-- SHA-256 processing of one 64-byte block. -/
def sha256block (H block : List Nat) : List Nat :=
  addStates H (compressLoop sha256K (extendW 48 (toWords block)) H)

/-- Block iteration, structurally recursive on a fuel bound (any bound at
least the block count works). -/
def sha256blocksAux : Nat → List Nat → List Nat → List Nat
  | 0, H, _ => H
  | _ + 1, H, [] => H
  | fuel + 1, H, b :: rest =>
    sha256blocksAux fuel (sha256block H ((b :: rest).take 64)) ((b :: rest).drop 64)

/-- SHA-256 digest of a byte list (FIPS 180-4), as 32 bytes. -/
def sha256 (msg : List Nat) : List Nat :=
  ((sha256blocksAux (sha256pad msg).length sha256H0 (sha256pad msg)).map be32).flatten

/-- Embedding of the source's `generate_pkce` (test_google_oauth.py
lines 25-31): the verifier is the unpadded URL-safe Base64 of the 32
random bytes drawn by `secrets.token_bytes(32)` (passed here as the
`randomBytes` argument), the challenge the unpadded URL-safe Base64 of the
SHA-256 of the verifier's UTF-8 bytes.  The verifier is ASCII, so its
UTF-8 bytes coincide with its code points. -/
def generate_pkce (randomBytes : List Nat) : List Nat × List Nat :=
  (b64urlEncodeNoPad randomBytes, b64urlEncodeNoPad (sha256 (b64urlEncodeNoPad randomBytes)))

/-- Embedding of the challenge re-derivation of test_google_oauth.py
lines 177-179: unpadded URL-safe Base64 of the SHA-256 of a given
verifier. -/
def deriveChallenge (verifier : List Nat) : List Nat := b64urlEncodeNoPad (sha256 verifier)

/-- RFC 3986 unreserved characters: letters, digits, `-`, `.`, `_`, `~`. -/
def isUnreserved (c : Nat) : Bool :=
  (65 ≤ c && c ≤ 90) || (97 ≤ c && c ≤ 122) || (48 ≤ c && c ≤ 57) ||
    c == 45 || c == 46 || c == 95 || c == 126

/-- Prefix test on code-point lists. -/
def listStartsWith : List Nat → List Nat → Bool
  | _, [] => true
  | [], _ :: _ => false
  | a :: as, b :: bs => a == b && listStartsWith as bs

/-- Substring containment, the Python `needle in hay` on strings. -/
def containsSub : List Nat → List Nat → Bool
  | [], needle => needle.isEmpty
  | a :: t, needle => listStartsWith (a :: t) needle || containsSub t needle

/-- Callback classification outcomes, the spec's `CallbackOutcome`. -/
inductive CallbackOutcome where
  | Success (code : List Nat) (state : FlowState)
  | UserDenied (reason : List Nat)
  | Malformed (missing : List (List Nat))
  | Expired
deriving DecidableEq

/-- First-match lookup in a query-parameter map. -/
def lookupParam : List (List Nat × List Nat) → List Nat → Option (List Nat)
  | [], _ => none
  | (k, v) :: rest, key => if k = key then some v else lookupParam rest key

/-- Label under which a `DecodeError` is propagated into `Malformed`. -/
def decodeErrorLabel : DecodeError → List Nat
  | .MalformedEncoding => strCP ("state-malformed-encoding")
  | .MalformedPayload => strCP ("state-malformed-payload")
  | .MissingRequiredField n => n

/-- Modelled from the spec: the `CallbackValidator` algorithm of spec
section 4.3 (the production callback component is not among the source
files; the source scripts only exercise it from outside).  Step order as
specified: an `error` parameter short-circuits to `UserDenied`; then
`code` and `state` are required, missing ones listed in `Malformed`; then
the state is decoded by the codec, decode errors propagating as
`Malformed`; then the flow lifetime is checked (`Expired`); then the
integration's optional scope predicate (`Malformed({scope-mismatch})`);
otherwise `Success(code, state)`. -/
def validateCallback (requiredScope : Option (List Nat → Bool)) (maxAge now : Nat)
    (params : List (List Nat × List Nat)) : CallbackOutcome :=
  match lookupParam params (strCP ("error")) with
  | some e => .UserDenied e
  | none =>
    match lookupParam params (strCP ("code")), lookupParam params (strCP ("state")) with
    | some code, some stateTok =>
      (match decodeState stateTok with
       | .error e => .Malformed [decodeErrorLabel e]
       | .ok s =>
         if maxAge < now - s.timestamp then .Expired
         else
           match requiredScope with
           | none => .Success code s
           | some p =>
             match s.scope with
             | some sc => if p sc then .Success code s else .Malformed [strCP ("scope-mismatch")]
             | none => .Malformed [strCP ("scope-mismatch")])
    | c?, s? =>
      .Malformed ((if c? = none then [strCP ("code")] else []) ++
        (if s? = none then [strCP ("state")] else []))

/-- Dispatch rule of spec section 4.3: only `Success` reaches the
`TokenExchanger`. -/
def dispatchesToExchanger : CallbackOutcome → Bool
  | .Success _ _ => true
  | _ => false

/-- Embedding of the dispatch condition of
verify_oauth_callback_fix.py line 161 (the OAuth callback's decision to
invoke the exchanger):
`platform == 'google' and userId and scope and 'adwords' in scope`,
with Python truthiness of the strings made explicit. -/
def oauthCallbackCondition (s : FlowState) : Bool :=
  (s.platform == strCP ("google")) && !s.userId.isEmpty &&
    (match s.scope with
     | some sc => !sc.isEmpty && containsSub sc (strCP ("adwords"))
     | none => false)

/-- Scope predicate of the google-ads integration: the decoded scope must
contain the substring `adwords` (the predicate the source applies). -/
def adwordsPred (sc : List Nat) : Bool := containsSub sc (strCP ("adwords"))

/-- Provider behaviour observed for one token-endpoint request: either a
transport failure or an HTTP response with a status, the `error` field of
its JSON body (when present), and its raw body. -/
inductive ProviderResponse where
  | transportFailure
  | httpResponse (status : Nat) (errorField : Option (List Nat)) (body : List Nat)

/-- Exchange outcomes, the spec's `TokenResult`/`ExchangeError` split. -/
inductive ExchangeResult where
  | success (body : List Nat)
  | invalidGrant
  | invalidClient
  | networkFailure
  | unexpectedStatus (status : Nat)
deriving DecidableEq

/-- Modelled from the spec: response classification of the
`TokenExchanger` (spec section 4.4; the production exchanger is not among
the source files, whose test only narrates the expected classification).
A transport failure is `networkFailure`; a 2xx response is success; a
400-class response whose error body carries `invalid_grant` is the normal
reportable `invalidGrant`; any other non-2xx response is
`unexpectedStatus`. -/
def classifyExchange : ProviderResponse → ExchangeResult
  | .transportFailure => .networkFailure
  | .httpResponse st ef body =>
    if 200 ≤ st ∧ st < 300 then .success body
    else if (400 ≤ st ∧ st < 500) ∧
        (match ef with
         | some e => containsSub e (strCP ("invalid_grant"))
         | none => false) = true then .invalidGrant
    else .unexpectedStatus st

/-- Modelled from the spec: the exchanger issues exactly one request
(`No retries`) and classifies its observed outcome.  The provider is
modelled as an oracle giving the outcome of the `n`-th request that would
be issued; the result is the number of requests issued paired with the
classification. -/
def tokenExchange (provider : Nat → ProviderResponse) : Nat × ExchangeResult :=
  (1, classifyExchange (provider 0))

/-- Example random bytes standing in for one `secrets.token_bytes(32)`
draw in concrete witnesses. -/
def rbSample : List Nat := List.range 32

/-- Concrete flow state used in witnesses, with the field shapes of the
source's `state_data` dictionaries. -/
def sampleState : FlowState :=
  { userId := strCP ("test-user-123"), platform := strCP ("google"),
    timestamp := 1759754919, nonce := strCP ("4f9a2b3c"),
    scope := some (strCP ("https://www.googleapis.com/auth/adwords")) }

/-- Concrete flow state whose encoding exhibits both `=` padding and a
`+` character. -/
def cexState : FlowState :=
  { userId := strCP ("~~~"), platform := strCP ("google"),
    timestamp := 1759754919, nonce := strCP ("4f9a2b3c"), scope := none }

/-- Concrete flow state differing from `sampleState` only in how its
fields are written. -/
def sampleStateB : FlowState :=
  { userId := strCP ("test-user-123"), platform := strCP ("google"),
    timestamp := 1759754918 + 1, nonce := strCP ("4f9a2b3c"),
    scope := some (strCP ("https://www.googleapis.com/auth/adwords")) }

/-- Concrete flow state with the scope omitted, as the pre-fix
`UserGoogleAdsService` produced it. -/
def noScopeState : FlowState :=
  { userId := strCP ("test-user-123"), platform := strCP ("google"),
    timestamp := 1759754919, nonce := strCP ("4f9a2b3c"), scope := none }

/-- Callback parameters of a provider error redirect that also carries a
code. -/
def errParams : List (List Nat × List Nat) :=
  [(strCP ("error"), strCP ("access_denied")), (strCP ("code"), strCP ("4/0AX4Xtest")),
   (strCP ("state"), encodeState sampleState)]

/-- Callback parameters carrying only a valid state. -/
def stateOnlyParams : List (List Nat × List Nat) :=
  [(strCP ("state"), encodeState sampleState)]

/-- Callback parameters of a successful google redirect. -/
def googleParams : List (List Nat × List Nat) :=
  [(strCP ("code"), strCP ("4/0AX4Xtest")), (strCP ("state"), encodeState sampleState)]

/-- Callback parameters whose state lacks the scope field. -/
def noScopeParams : List (List Nat × List Nat) :=
  [(strCP ("code"), strCP ("4/0AX4Xtest")), (strCP ("state"), encodeState noScopeState)]

/-- Provider oracle answering every token request with the 400
`invalid_grant` body an already-consumed code produces. -/
def exchProvider : Nat → ProviderResponse :=
  fun _ => .httpResponse 400 (some (strCP ("invalid_grant"))) []

/-- Well-formedness of a flow state: every string field consists of
Unicode scalar values (what a Python `str` that passes `.encode('utf-8')`
holds). -/
def wfState (s : FlowState) : Prop :=
  (∀ c ∈ s.userId, isValidCP c = true) ∧ (∀ c ∈ s.platform, isValidCP c = true) ∧
  (∀ c ∈ s.nonce, isValidCP c = true) ∧
  (∀ sc, s.scope = some sc → ∀ c ∈ sc, isValidCP c = true)

/-- Induction principle following the three-byte grouping of the Base64
encoder. -/
theorem threeStepInduction {P : List Nat → Prop} (h0 : P []) (h1 : ∀ a, P [a])
    (h2 : ∀ a b, P [a, b]) (h3 : ∀ a b c l, P l → P (a :: b :: c :: l)) : ∀ l, P l
  | [] => h0
  | [a] => h1 a
  | [a, b] => h2 a b
  | a :: b :: c :: l => h3 a b c l (threeStepInduction h0 h1 h2 h3 l)

theorem b64alpha_length : b64alpha.length = 64 := by decide

theorem idxOf_b64char_std : ∀ n, n < 64 → idxOf (b64charW b64alpha n) b64alpha = some n := by
  decide

theorem b64charW_std_ne_61 (n : Nat) : b64charW b64alpha n ≠ 61 := by
  rcases Nat.lt_or_ge n 64 with h | h
  · exact (by decide : ∀ m, m < 64 → b64charW b64alpha m ≠ 61) n h
  · rw [b64charW, List.getD_eq_default]
    · decide
    · rw [b64alpha_length]; exact h

theorem b64decodeW_encodeW :
    ∀ bs, (∀ b ∈ bs, b < 256) → b64decodeW b64alpha (b64encodeW b64alpha bs) = some bs := by
  intro bs
  induction bs using threeStepInduction with
  | h0 => intro _; rfl
  | h1 a =>
    intro h
    have ha : a < 256 := h a (by simp)
    have i1 := idxOf_b64char_std (a / 4) (by omega)
    have i2 := idxOf_b64char_std (a % 4 * 16) (by omega)
    simp [b64encodeW, b64decodeW, i1, i2]
    omega
  | h2 a b =>
    intro h
    have ha : a < 256 := h a (by simp)
    have hb : b < 256 := h b (by simp)
    have i1 := idxOf_b64char_std (a / 4) (by omega)
    have i2 := idxOf_b64char_std (a % 4 * 16 + b / 16) (by omega)
    have i3 := idxOf_b64char_std (b % 16 * 4) (by omega)
    have n3 := b64charW_std_ne_61 (b % 16 * 4)
    simp [b64encodeW, b64decodeW, i1, i2, i3, n3]
    omega
  | h3 a b c l ih =>
    intro h
    have ha : a < 256 := h a (by simp)
    have hb : b < 256 := h b (by simp)
    have hc : c < 256 := h c (by simp)
    have hl : ∀ x ∈ l, x < 256 := fun x hx => h x (by simp [hx])
    have i1 := idxOf_b64char_std (a / 4) (by omega)
    have i2 := idxOf_b64char_std (a % 4 * 16 + b / 16) (by omega)
    have i3 := idxOf_b64char_std (b % 16 * 4 + c / 64) (by omega)
    have i4 := idxOf_b64char_std (c % 64) (by omega)
    have n3 := b64charW_std_ne_61 (b % 16 * 4 + c / 64)
    have n4 := b64charW_std_ne_61 (c % 64)
    simp [b64encodeW, b64decodeW, i1, i2, i3, i4, n3, n4, ih hl]
    omega

/-- Standard-alphabet round trip at the byte level. -/
theorem b64decode_encode (bs : List Nat) (hb : ∀ b ∈ bs, b < 256) :
    b64decode (b64encode bs) = some bs := b64decodeW_encodeW bs hb

theorem hexDigit_bounds (n : Nat) (h : n < 16) : 48 ≤ hexDigit n ∧ hexDigit n ≤ 102 := by
  unfold hexDigit; split <;> omega

theorem hex4_ascii (n : Nat) : ∀ d ∈ hex4 n, d < 128 := by
  intro d hd
  simp [hex4] at hd
  rcases hd with h | h | h | h <;> subst h <;>
    first
    | exact Nat.lt_of_le_of_lt (hexDigit_bounds _ (Nat.mod_lt _ (by omega))).2 (by omega)

theorem escapeCP_ascii (c : Nat) : ∀ d ∈ escapeCP c, d < 128 := by
  intro d hd
  by_cases h1 : c = 34
  · simp [escapeCP, h1] at hd; omega
  by_cases h2 : c = 92
  · simp [escapeCP, h1, h2] at hd; omega
  by_cases h3 : c = 8
  · simp [escapeCP, h1, h2, h3] at hd; omega
  by_cases h4 : c = 9
  · simp [escapeCP, h1, h2, h3, h4] at hd; omega
  by_cases h5 : c = 10
  · simp [escapeCP, h1, h2, h3, h4, h5] at hd; omega
  by_cases h6 : c = 12
  · simp [escapeCP, h1, h2, h3, h4, h5, h6] at hd; omega
  by_cases h7 : c = 13
  · simp [escapeCP, h1, h2, h3, h4, h5, h6, h7] at hd; omega
  by_cases h8 : c < 32
  · simp [escapeCP, h1, h2, h3, h4, h5, h6, h7, h8] at hd
    rcases hd with h | h | h
    · omega
    · omega
    · exact hex4_ascii _ _ h
  by_cases h9 : c < 127
  · simp [escapeCP, h1, h2, h3, h4, h5, h6, h7, h8, h9] at hd; omega
  by_cases h10 : c < 65536
  · simp [escapeCP, h1, h2, h3, h4, h5, h6, h7, h8, h9, h10] at hd
    rcases hd with h | h | h
    · omega
    · omega
    · exact hex4_ascii _ _ h
  · simp [escapeCP, h1, h2, h3, h4, h5, h6, h7, h8, h9, h10] at hd
    rcases hd with h | h | h | h | h | h
    · omega
    · omega
    · exact hex4_ascii _ _ h
    · omega
    · omega
    · exact hex4_ascii _ _ h
theorem escapeStr_ascii : ∀ s, ∀ d ∈ escapeStr s, d < 128 := by
  intro s
  induction s with
  | nil => intro d hd; simp [escapeStr] at hd
  | cons c cs ih =>
    intro d hd
    simp [escapeStr] at hd
    rcases hd with h | h
    · exact escapeCP_ascii c d h
    · exact ih d h

theorem decimalAux_digits : ∀ fuel n, ∀ d ∈ decimalAux fuel n, 48 ≤ d ∧ d ≤ 57 := by
  intro fuel
  induction fuel with
  | zero => intro n d hd; simp [decimalAux] at hd; omega
  | succ f ih =>
    intro n d hd
    simp only [decimalAux] at hd
    split at hd
    · simp at hd; omega
    · simp at hd
      rcases hd with h | h
      · exact ih _ d h
      · omega

theorem decimal_digits (n : Nat) : ∀ d ∈ decimal n, 48 ≤ d ∧ d ≤ 57 :=
  decimalAux_digits n n

theorem serializeVal_ascii (v : JVal) : ∀ d ∈ serializeVal v, d < 128 := by
  intro d hd
  cases v with
  | jstr s =>
    simp [serializeVal] at hd
    rcases hd with h | h | h
    · omega
    · exact escapeStr_ascii s d h
    · omega
  | jnum n =>
    simp [serializeVal] at hd
    have := decimal_digits n d hd
    omega

theorem serializeMember_ascii (m : List Nat × JVal) : ∀ d ∈ serializeMember m, d < 128 := by
  intro d hd
  simp [serializeMember] at hd
  rcases hd with h | h | h | h | h | h
  · omega
  · exact escapeStr_ascii _ d h
  · omega
  · omega
  · omega
  · exact serializeVal_ascii _ d h

theorem serializeMembers_ascii : ∀ ms, ∀ d ∈ serializeMembers ms, d < 128 := by
  intro ms
  induction ms with
  | nil => intro d hd; simp [serializeMembers] at hd
  | cons m ms ih =>
    intro d hd
    cases ms with
    | nil => exact serializeMember_ascii m d hd
    | cons m2 ms2 =>
      simp only [serializeMembers] at hd
      simp at hd
      rcases hd with h | h | h | h
      · exact serializeMember_ascii m d h
      · omega
      · omega
      · exact ih d h

theorem dumps_ascii (s : FlowState) : ∀ d ∈ dumps s, d < 128 := by
  intro d hd
  simp [dumps] at hd
  rcases hd with h | h | h
  · omega
  · exact serializeMembers_ascii _ d h
  · omega

theorem hexVal_hexDigit (m : Nat) (h : m < 16) : hexVal (hexDigit m) = some m := by
  unfold hexDigit hexVal
  split_ifs <;> (try simp only [Option.some.injEq]) <;> omega

theorem parseHex4_hex4 (n : Nat) (h : n < 65536) (r : List Nat) :
    parseHex4 (hex4 n ++ r) = some (n, r) := by
  have e1 := hexVal_hexDigit (n / 4096 % 16) (by omega)
  have e2 := hexVal_hexDigit (n / 256 % 16) (by omega)
  have e3 := hexVal_hexDigit (n / 16 % 16) (by omega)
  have e4 := hexVal_hexDigit (n % 16) (by omega)
  simp only [hex4, List.cons_append, List.nil_append, parseHex4, e1, e2, e3, e4]
  have hval : ((n / 4096 % 16 * 16 + n / 256 % 16) * 16 + n / 16 % 16) * 16 + n % 16 = n := by
    omega
  rw [hval]

theorem pue_bmp (n : Nat) (h : n < 65536) (hs1 : ¬ (55296 ≤ n ∧ n < 56320))
    (hs2 : ¬ (56320 ≤ n ∧ n < 57344)) (r : List Nat) :
    parseUEscape (hex4 n ++ r) = some (n, r) := by
  simp only [parseUEscape, parseHex4_hex4 n h r, if_neg hs1, if_neg hs2]

theorem pue_pair_gen (hi lo : Nat) (hhi1 : 55296 ≤ hi) (hhi2 : hi < 56320)
    (hlo1 : 56320 ≤ lo) (hlo2 : lo < 57344) (r : List Nat) :
    parseUEscape (hex4 hi ++ (92 :: 117 :: (hex4 lo ++ r))) =
      some (65536 + (hi - 55296) * 1024 + (lo - 56320), r) := by
  unfold parseUEscape
  rw [parseHex4_hex4 _ (by omega)]
  dsimp only
  rw [if_pos (by exact ⟨hhi1, hhi2⟩ : 55296 ≤ hi ∧ hi < 56320)]
  rw [parseHex4_hex4 _ (by omega)]
  dsimp only
  rw [if_pos (by exact ⟨hlo1, hlo2⟩ : 56320 ≤ lo ∧ lo < 57344)]

theorem pe_u (r : List Nat) : parseEscape (117 :: r) = parseUEscape r := by
  simp [parseEscape]

theorem pe_quote (r : List Nat) : parseEscape (34 :: r) = some (34, r) := by simp [parseEscape]

theorem pe_bslash (r : List Nat) : parseEscape (92 :: r) = some (92, r) := by simp [parseEscape]

theorem pe_b (r : List Nat) : parseEscape (98 :: r) = some (8, r) := by simp [parseEscape]

theorem pe_t (r : List Nat) : parseEscape (116 :: r) = some (9, r) := by simp [parseEscape]

theorem pe_n (r : List Nat) : parseEscape (110 :: r) = some (10, r) := by simp [parseEscape]

theorem pe_f (r : List Nat) : parseEscape (102 :: r) = some (12, r) := by simp [parseEscape]

theorem pe_r (r : List Nat) : parseEscape (114 :: r) = some (13, r) := by simp [parseEscape]

theorem psb_step_esc (fuel : Nat) (r0 r1 : List Nat) (cp : Nat)
    (he : parseEscape r0 = some (cp, r1)) :
    parseStringBody (fuel + 1) (92 :: r0) =
      (parseStringBody fuel r1).map (fun p => (cp :: p.1, p.2)) := by
  simp [parseStringBody, he]

theorem psb_close (fuel : Nat) (r : List Nat) :
    parseStringBody (fuel + 1) (34 :: r) = some ([], r) := by
  simp [parseStringBody]

theorem psb_lit (fuel c : Nat) (hc1 : c ≠ 34) (hc2 : c ≠ 92) (hc3 : 32 ≤ c) (r : List Nat) :
    parseStringBody (fuel + 1) (c :: r) =
      (parseStringBody fuel r).map (fun p => (c :: p.1, p.2)) := by
  simp only [parseStringBody]
  rw [if_neg hc1, if_neg hc2, if_neg (by omega : ¬ c < 32)]

theorem psb_escape :
    ∀ s : List Nat, ∀ fuel rest, (∀ c ∈ s, isValidCP c = true) → s.length < fuel →
      parseStringBody fuel (escapeStr s ++ 34 :: rest) = some (s, rest) := by
  intro s
  induction s with
  | nil =>
    intro fuel rest _ hf
    cases fuel with
    | zero => omega
    | succ f => simpa [escapeStr] using psb_close f rest
  | cons c cs ih =>
    intro fuel rest hv hf
    cases fuel with
    | zero => omega
    | succ f =>
    have hvc : isValidCP c = true := hv c (by simp)
    have hvcs : ∀ x ∈ cs, isValidCP x = true := fun x hx => hv x (by simp [hx])
    have hfc : cs.length < f := by simp at hf; omega
    have hrange : c < 55296 ∨ (57344 ≤ c ∧ c < 1114112) := by
      simp [isValidCP] at hvc; omega
    have ihr := ih f rest hvcs hfc
    by_cases h1 : c = 34
    · subst h1
      have ec : escapeCP 34 = [92, 34] := by decide
      simp only [escapeStr, ec, List.cons_append, List.nil_append]
      rw [psb_step_esc f _ _ 34 (pe_quote _), ihr]
      rfl
    by_cases h2 : c = 92
    · subst h2
      have ec : escapeCP 92 = [92, 92] := by decide
      simp only [escapeStr, ec, List.cons_append, List.nil_append]
      rw [psb_step_esc f _ _ 92 (pe_bslash _), ihr]
      rfl
    by_cases h3 : c = 8
    · subst h3
      have ec : escapeCP 8 = [92, 98] := by decide
      simp only [escapeStr, ec, List.cons_append, List.nil_append]
      rw [psb_step_esc f _ _ 8 (pe_b _), ihr]
      rfl
    by_cases h4 : c = 9
    · subst h4
      have ec : escapeCP 9 = [92, 116] := by decide
      simp only [escapeStr, ec, List.cons_append, List.nil_append]
      rw [psb_step_esc f _ _ 9 (pe_t _), ihr]
      rfl
    by_cases h5 : c = 10
    · subst h5
      have ec : escapeCP 10 = [92, 110] := by decide
      simp only [escapeStr, ec, List.cons_append, List.nil_append]
      rw [psb_step_esc f _ _ 10 (pe_n _), ihr]
      rfl
    by_cases h6 : c = 12
    · subst h6
      have ec : escapeCP 12 = [92, 102] := by decide
      simp only [escapeStr, ec, List.cons_append, List.nil_append]
      rw [psb_step_esc f _ _ 12 (pe_f _), ihr]
      rfl
    by_cases h7 : c = 13
    · subst h7
      have ec : escapeCP 13 = [92, 114] := by decide
      simp only [escapeStr, ec, List.cons_append, List.nil_append]
      rw [psb_step_esc f _ _ 13 (pe_r _), ihr]
      rfl
    by_cases h8 : c < 32
    · have ec : escapeCP c = 92 :: 117 :: hex4 c := by
        unfold escapeCP
        rw [if_neg h1, if_neg h2, if_neg h3, if_neg h4, if_neg h5, if_neg h6, if_neg h7,
          if_pos h8]
      have hpe : parseEscape (117 :: (hex4 c ++ (escapeStr cs ++ 34 :: rest))) =
          some (c, escapeStr cs ++ 34 :: rest) := by
        rw [pe_u, pue_bmp c (by omega) (by omega) (by omega)]
      simp only [escapeStr, ec, List.cons_append, List.append_assoc]
      rw [psb_step_esc f _ _ c hpe, ihr]
      rfl
    by_cases h9 : c < 127
    · have ec : escapeCP c = [c] := by
        unfold escapeCP
        rw [if_neg h1, if_neg h2, if_neg h3, if_neg h4, if_neg h5, if_neg h6, if_neg h7,
          if_neg h8, if_pos h9]
      simp only [escapeStr, ec, List.cons_append, List.nil_append]
      rw [psb_lit f c h1 h2 (by omega), ihr]
      rfl
    by_cases h10 : c < 65536
    · have ec : escapeCP c = 92 :: 117 :: hex4 c := by
        unfold escapeCP
        rw [if_neg h1, if_neg h2, if_neg h3, if_neg h4, if_neg h5, if_neg h6, if_neg h7,
          if_neg h8, if_neg h9, if_pos h10]
      have hpe : parseEscape (117 :: (hex4 c ++ (escapeStr cs ++ 34 :: rest))) =
          some (c, escapeStr cs ++ 34 :: rest) := by
        rw [pe_u, pue_bmp c (by omega) (by omega) (by omega)]
      simp only [escapeStr, ec, List.cons_append, List.append_assoc]
      rw [psb_step_esc f _ _ c hpe, ihr]
      rfl
    · obtain ⟨hi, hhid⟩ : ∃ hi, 55296 + (c - 65536) / 1024 = hi := ⟨_, rfl⟩
      obtain ⟨lo, hlod⟩ : ∃ lo, 56320 + (c - 65536) % 1024 = lo := ⟨_, rfl⟩
      have ec : escapeCP c = 92 :: 117 :: hex4 hi ++ 92 :: 117 :: hex4 lo := by
        unfold escapeCP
        rw [if_neg h1, if_neg h2, if_neg h3, if_neg h4, if_neg h5, if_neg h6, if_neg h7,
          if_neg h8, if_neg h9, if_neg h10, hhid, hlod]
      have hval : 65536 + (hi - 55296) * 1024 + (lo - 56320) = c := by omega
      have hpe : parseEscape (117 :: (hex4 hi ++
          (92 :: 117 :: (hex4 lo ++ (escapeStr cs ++ 34 :: rest))))) =
          some (c, escapeStr cs ++ 34 :: rest) := by
        rw [pe_u, pue_pair_gen hi lo (by omega) (by omega) (by omega) (by omega), hval]
      simp only [escapeStr, ec, List.cons_append, List.append_assoc]
      rw [psb_step_esc f _ _ c hpe, ihr]
      rfl

theorem skipWS_nonws (c : Nat) (r : List Nat) (h1 : c ≠ 32) (h2 : c ≠ 9) (h3 : c ≠ 10)
    (h4 : c ≠ 13) : skipWS (c :: r) = c :: r := by
  simp [skipWS, h1, h2, h3, h4]

theorem skipWS_space (r : List Nat) : skipWS (32 :: r) = skipWS r := by
  simp [skipWS]

theorem escapeCP_length (c : Nat) : 1 ≤ (escapeCP c).length := by
  unfold escapeCP
  iterate 11 (all_goals (try split))
  all_goals simp

theorem escapeStr_length_ge : ∀ s : List Nat, s.length ≤ (escapeStr s).length := by
  intro s
  induction s with
  | nil => simp [escapeStr]
  | cons c cs ih =>
    have := escapeCP_length c
    simp [escapeStr]
    omega

theorem parseJString_escape (s rest : List Nat) (hv : ∀ c ∈ s, isValidCP c = true) :
    parseJString (escapeStr s ++ 34 :: rest) = some (s, rest) := by
  unfold parseJString
  apply psb_escape s _ rest hv
  have := escapeStr_length_ge s
  simp only [List.length_append, List.length_cons]
  omega

theorem digitsToNat_append (ds : List Nat) (d : Nat) :
    digitsToNat (ds ++ [d]) = digitsToNat ds * 10 + (d - 48) := by
  simp [digitsToNat, List.foldl_append]

theorem decimalAux_val : ∀ fuel n, n ≤ fuel → digitsToNat (decimalAux fuel n) = n := by
  intro fuel
  induction fuel with
  | zero =>
    intro n h
    have hn : n = 0 := by omega
    subst hn
    decide
  | succ f ih =>
    intro n h
    simp only [decimalAux]
    split
    · simp only [digitsToNat, List.foldl]; omega
    · rw [digitsToNat_append, ih (n / 10) (by omega)]
      omega

theorem digitsToNat_decimal (n : Nat) : digitsToNat (decimal n) = n :=
  decimalAux_val n n (Nat.le_refl n)

theorem decimalAux_ne_nil (fuel n : Nat) : decimalAux fuel n ≠ [] := by
  cases fuel with
  | zero => simp [decimalAux]
  | succ f =>
    simp only [decimalAux]
    split <;> simp

theorem decimal_ne_nil (n : Nat) : decimal n ≠ [] := decimalAux_ne_nil n n

theorem takeWhile_append_digits :
    ∀ ds : List Nat, (∀ d ∈ ds, isDigitCP d = true) → ∀ c t, isDigitCP c = false →
      (ds ++ c :: t).takeWhile isDigitCP = ds ∧ (ds ++ c :: t).dropWhile isDigitCP = c :: t := by
  intro ds
  induction ds with
  | nil =>
    intro _ c t hc
    constructor
    · simp [List.takeWhile_cons, hc]
    · simp [List.dropWhile_cons, hc]
  | cons d ds ih =>
    intro hds c t hc
    have hd : isDigitCP d = true := hds d (by simp)
    have hrec := ih (fun x hx => hds x (by simp [hx])) c t hc
    constructor
    · simp only [List.cons_append, List.takeWhile_cons, hd, if_true, hrec.1]
    · simp only [List.cons_append, List.dropWhile_cons, hd, if_true, hrec.2]

theorem parseNat_decimal (n c : Nat) (t : List Nat) (hc : isDigitCP c = false) :
    parseNat (decimal n ++ c :: t) = some (n, c :: t) := by
  have hds : ∀ d ∈ decimal n, isDigitCP d = true := by
    intro d hd
    have := decimal_digits n d hd
    simp [isDigitCP]
    omega
  obtain ⟨htake, hdrop⟩ := takeWhile_append_digits (decimal n) hds c t hc
  obtain ⟨d, ds, hdd⟩ := List.exists_cons_of_ne_nil (decimal_ne_nil n)
  simp only [parseNat, htake, hdrop]
  rw [hdd]
  dsimp only
  rw [← hdd, digitsToNat_decimal]

theorem parseValue_jstr (v rest : List Nat) (hv : ∀ c ∈ v, isValidCP c = true) :
    parseValue (serializeVal (.jstr v) ++ rest) = some (.jstr v, rest) := by
  have hshape : serializeVal (JVal.jstr v) ++ rest = 34 :: (escapeStr v ++ 34 :: rest) := by
    simp [serializeVal]
  rw [hshape]
  simp only [parseValue, if_true]
  rw [parseJString_escape v rest hv]
  rfl

theorem parseValue_jnum (n c : Nat) (t : List Nat) (hc : isDigitCP c = false) :
    parseValue (serializeVal (.jnum n) ++ c :: t) = some (.jnum n, c :: t) := by
  obtain ⟨d, ds, hdd⟩ := List.exists_cons_of_ne_nil (decimal_ne_nil n)
  have hdm : d ∈ decimal n := by rw [hdd]; simp
  have hd : isDigitCP d = true := by
    have := decimal_digits n d hdm
    simp [isDigitCP]
    omega
  have hd34 : d ≠ 34 := by simp [isDigitCP] at hd; omega
  have hshape : serializeVal (JVal.jnum n) ++ c :: t = d :: (ds ++ c :: t) := by
    simp [serializeVal, hdd]
  rw [hshape]
  simp only [parseValue]
  rw [if_neg hd34, if_pos hd]
  have hback : d :: (ds ++ c :: t) = decimal n ++ c :: t := by simp [hdd]
  rw [hback, parseNat_decimal n c t hc]
  rfl

theorem skipWS_serializeVal (v : JVal) (x : List Nat) :
    skipWS (serializeVal v ++ x) = serializeVal v ++ x := by
  cases v with
  | jstr s =>
    simp only [serializeVal, List.cons_append]
    exact skipWS_nonws 34 _ (by omega) (by omega) (by omega) (by omega)
  | jnum n =>
    obtain ⟨d, ds, hdd⟩ := List.exists_cons_of_ne_nil (decimal_ne_nil n)
    have hd := decimal_digits n d (by rw [hdd]; simp)
    simp only [serializeVal, hdd, List.cons_append]
    exact skipWS_nonws d _ (by omega) (by omega) (by omega) (by omega)

theorem parseValue_serialize (v : JVal) (c : Nat) (t : List Nat) (hc : c = 44 ∨ c = 125)
    (hv : ∀ s, v = .jstr s → ∀ x ∈ s, isValidCP x = true) :
    parseValue (serializeVal v ++ c :: t) = some (v, c :: t) := by
  cases v with
  | jstr s => exact parseValue_jstr s _ (hv s rfl)
  | jnum n =>
    refine parseValue_jnum n c t ?_
    rcases hc with h | h <;> subst h <;> decide

theorem parseMembers_last (f : Nat) (k : List Nat) (v : JVal) (rest : List Nat)
    (hk : ∀ x ∈ k, isValidCP x = true)
    (hv : ∀ s, v = .jstr s → ∀ x ∈ s, isValidCP x = true) :
    parseMembers (f + 1) (serializeMember (k, v) ++ 125 :: rest) = some ([(k, v)], rest) := by
  have hshape : serializeMember (k, v) ++ 125 :: rest =
      34 :: (escapeStr k ++ 34 :: (58 :: (32 :: (serializeVal v ++ 125 :: rest)))) := by
    simp [serializeMember]
  rw [hshape]
  simp only [parseMembers, if_true]
  rw [parseJString_escape k _ hk]
  dsimp only
  rw [skipWS_nonws 58 _ (by omega) (by omega) (by omega) (by omega)]
  dsimp only
  rw [if_pos rfl, skipWS_space, skipWS_serializeVal,
    parseValue_serialize v 125 rest (Or.inr rfl) hv]
  dsimp only
  rw [skipWS_nonws 125 _ (by omega) (by omega) (by omega) (by omega)]
  dsimp only
  rw [if_neg (by omega), if_pos rfl]

theorem parseMembers_cons (f : Nat) (k : List Nat) (v : JVal) (rest : List Nat)
    (hk : ∀ x ∈ k, isValidCP x = true)
    (hv : ∀ s, v = .jstr s → ∀ x ∈ s, isValidCP x = true) :
    parseMembers (f + 1) (serializeMember (k, v) ++ 44 :: 32 :: rest) =
      (parseMembers f (skipWS rest)).map (fun p => ((k, v) :: p.1, p.2)) := by
  have hshape : serializeMember (k, v) ++ 44 :: 32 :: rest =
      34 :: (escapeStr k ++ 34 :: (58 :: (32 :: (serializeVal v ++ 44 :: 32 :: rest)))) := by
    simp [serializeMember]
  rw [hshape]
  simp only [parseMembers, if_true]
  rw [parseJString_escape k _ hk]
  dsimp only
  rw [skipWS_nonws 58 _ (by omega) (by omega) (by omega) (by omega)]
  dsimp only
  rw [if_pos rfl, skipWS_space, skipWS_serializeVal,
    parseValue_serialize v 44 (32 :: rest) (Or.inl rfl) hv]
  dsimp only
  rw [skipWS_nonws 44 _ (by omega) (by omega) (by omega) (by omega)]
  dsimp only
  rw [if_pos rfl, skipWS_space]

theorem serializeMembers_cons_shape (m m2 : List Nat × JVal) (ms : List (List Nat × JVal)) :
    serializeMembers (m :: m2 :: ms) = serializeMember m ++ 44 :: 32 :: serializeMembers (m2 :: ms) := by
  simp [serializeMembers]

theorem serializeMember_head (m : List Nat × JVal) :
    ∃ t, serializeMember m = 34 :: t := ⟨_, rfl⟩

theorem serializeMembers_head (m : List Nat × JVal) (ms : List (List Nat × JVal)) :
    ∃ t, serializeMembers (m :: ms) = 34 :: t := by
  cases ms with
  | nil => exact ⟨_, rfl⟩
  | cons m2 ms2 =>
    rw [serializeMembers_cons_shape]
    exact ⟨_, rfl⟩

theorem skipWS_serializeMembers (m : List Nat × JVal) (ms : List (List Nat × JVal))
    (x : List Nat) :
    skipWS (serializeMembers (m :: ms) ++ x) = serializeMembers (m :: ms) ++ x := by
  obtain ⟨t, ht⟩ := serializeMembers_head m ms
  rw [ht, List.cons_append]
  exact skipWS_nonws 34 _ (by omega) (by omega) (by omega) (by omega)

theorem parseMembers_serialize :
    ∀ ms : List (List Nat × JVal), ∀ f rest, ms.length ≤ f →
      (∀ m ∈ ms, (∀ x ∈ m.1, isValidCP x = true) ∧
        (∀ s, m.2 = .jstr s → ∀ x ∈ s, isValidCP x = true)) →
      ms ≠ [] →
      parseMembers f (serializeMembers ms ++ 125 :: rest) = some (ms, rest) := by
  intro ms
  induction ms with
  | nil => intro f rest _ _ hne; exact absurd rfl hne
  | cons m ms ih =>
    intro f rest hf hg _
    cases f with
    | zero => simp at hf
    | succ f =>
    obtain ⟨k, v⟩ := m
    have hk := (hg (k, v) (by simp)).1
    have hv := (hg (k, v) (by simp)).2
    cases ms with
    | nil =>
      simp only [serializeMembers]
      exact parseMembers_last f k v rest hk hv
    | cons m2 ms2 =>
      rw [serializeMembers_cons_shape (k, v) m2 ms2]
      have hassoc : (serializeMember (k, v) ++ 44 :: 32 :: serializeMembers (m2 :: ms2)) ++
          125 :: rest =
          serializeMember (k, v) ++ 44 :: 32 :: (serializeMembers (m2 :: ms2) ++ 125 :: rest) := by
        simp
      rw [hassoc, parseMembers_cons f k v _ hk hv, skipWS_serializeMembers,
        ih f rest (by simp at hf ⊢; omega) (fun x hx => hg x (by simp [hx])) (by simp)]
      rfl

theorem membersOf_ne_nil (s : FlowState) : membersOf s ≠ [] := by
  unfold membersOf
  cases s.scope <;> simp

theorem serializeMember_length (m : List Nat × JVal) : 1 ≤ (serializeMember m).length := by
  simp [serializeMember]

theorem serializeMembers_length_ge :
    ∀ ms : List (List Nat × JVal), ms.length ≤ (serializeMembers ms).length := by
  intro ms
  induction ms with
  | nil => simp [serializeMembers]
  | cons m ms ih =>
    cases ms with
    | nil => simpa [serializeMembers] using serializeMember_length m
    | cons m2 ms2 =>
      rw [serializeMembers_cons_shape]
      have h1 := serializeMember_length (m)
      simp only [List.length_cons, List.length_append] at ih ⊢
      omega

theorem parseObject_dumps (s : FlowState)
    (hg : ∀ m ∈ membersOf s, (∀ x ∈ m.1, isValidCP x = true) ∧
        (∀ v, m.2 = .jstr v → ∀ x ∈ v, isValidCP x = true)) :
    parseObject (dumps s) = some (membersOf s, []) := by
  obtain ⟨m, ms, hmm⟩ := List.exists_cons_of_ne_nil (membersOf_ne_nil s)
  have hdu : dumps s = 123 :: (serializeMembers (membersOf s) ++ 125 :: []) := by
    simp [dumps]
  rw [parseObject, hdu]
  rw [skipWS_nonws 123 _ (by omega) (by omega) (by omega) (by omega)]
  dsimp only
  rw [if_pos rfl]
  rw [hmm, skipWS_serializeMembers]
  obtain ⟨t, ht⟩ := serializeMembers_head m ms
  rw [ht, List.cons_append]
  dsimp only
  rw [if_neg (by omega), ← List.cons_append, ← ht, ← hmm]
  apply parseMembers_serialize (membersOf s) _ [] ?_ hg (membersOf_ne_nil s)
  have h1 := serializeMembers_length_ge (membersOf s)
  rw [hmm, ht]
  simp only [List.length_append, List.length_cons]
  rw [hmm, ht] at h1
  simp only [List.length_cons] at h1
  omega

theorem loads_dumps (s : FlowState)
    (hg : ∀ m ∈ membersOf s, (∀ x ∈ m.1, isValidCP x = true) ∧
        (∀ v, m.2 = .jstr v → ∀ x ∈ v, isValidCP x = true)) :
    loads (dumps s) = some (membersOf s) := by
  rw [loads, parseObject_dumps s hg]
  rfl

theorem extractState_membersOf (s : FlowState) : extractState (membersOf s) = .ok s := by
  have ne1 : strCP ("userId") = strCP ("platform") ↔ False := by decide
  have ne2 : strCP ("userId") = strCP ("timestamp") ↔ False := by decide
  have ne3 : strCP ("userId") = strCP ("nonce") ↔ False := by decide
  have ne4 : strCP ("userId") = strCP ("scope") ↔ False := by decide
  have ne5 : strCP ("platform") = strCP ("userId") ↔ False := by decide
  have ne6 : strCP ("platform") = strCP ("timestamp") ↔ False := by decide
  have ne7 : strCP ("platform") = strCP ("nonce") ↔ False := by decide
  have ne8 : strCP ("platform") = strCP ("scope") ↔ False := by decide
  have ne9 : strCP ("timestamp") = strCP ("userId") ↔ False := by decide
  have ne10 : strCP ("timestamp") = strCP ("platform") ↔ False := by decide
  have ne11 : strCP ("timestamp") = strCP ("nonce") ↔ False := by decide
  have ne12 : strCP ("timestamp") = strCP ("scope") ↔ False := by decide
  have ne13 : strCP ("nonce") = strCP ("userId") ↔ False := by decide
  have ne14 : strCP ("nonce") = strCP ("platform") ↔ False := by decide
  have ne15 : strCP ("nonce") = strCP ("timestamp") ↔ False := by decide
  have ne16 : strCP ("nonce") = strCP ("scope") ↔ False := by decide
  have ne17 : strCP ("scope") = strCP ("userId") ↔ False := by decide
  have ne18 : strCP ("scope") = strCP ("platform") ↔ False := by decide
  have ne19 : strCP ("scope") = strCP ("timestamp") ↔ False := by decide
  have ne20 : strCP ("scope") = strCP ("nonce") ↔ False := by decide
  obtain ⟨u, p, t, n, sc0⟩ := s
  cases sc0 with
  | none =>
    simp [extractState, lookupJ, membersOf, ne1, ne2, ne3, ne4, ne5, ne6, ne7, ne8, ne9, ne10, ne11, ne12, ne13, ne14, ne15, ne16, ne17, ne18, ne19, ne20]
  | some sc =>
    simp [extractState, lookupJ, membersOf, ne1, ne2, ne3, ne4, ne5, ne6, ne7, ne8, ne9, ne10, ne11, ne12, ne13, ne14, ne15, ne16, ne17, ne18, ne19, ne20]

theorem key_valid_userId : ∀ x ∈ strCP ("userId"), isValidCP x = true := by decide

theorem key_valid_platform : ∀ x ∈ strCP ("platform"), isValidCP x = true := by decide

theorem key_valid_timestamp : ∀ x ∈ strCP ("timestamp"), isValidCP x = true := by decide

theorem key_valid_nonce : ∀ x ∈ strCP ("nonce"), isValidCP x = true := by decide

theorem key_valid_scope : ∀ x ∈ strCP ("scope"), isValidCP x = true := by decide

theorem membersOf_good (s : FlowState) (hw : wfState s) :
    ∀ m ∈ membersOf s, (∀ x ∈ m.1, isValidCP x = true) ∧
      (∀ v, m.2 = .jstr v → ∀ x ∈ v, isValidCP x = true) := by
  obtain ⟨h1, h2, h3, h4⟩ := hw
  intro m hm
  unfold membersOf at hm
  cases hsc : s.scope with
  | none =>
    rw [hsc] at hm
    simp only [List.append_nil, List.mem_cons, List.not_mem_nil, or_false] at hm
    rcases hm with h | h | h | h <;> subst h
    · refine ⟨key_valid_userId, ?_⟩
      intro v hv x hx
      injection hv with he
      subst he
      exact h1 x hx
    · refine ⟨key_valid_platform, ?_⟩
      intro v hv x hx
      injection hv with he
      subst he
      exact h2 x hx
    · refine ⟨key_valid_timestamp, ?_⟩
      intro v hv
      simp at hv
    · refine ⟨key_valid_nonce, ?_⟩
      intro v hv x hx
      injection hv with he
      subst he
      exact h3 x hx
  | some sc =>
    rw [hsc] at hm
    simp only [List.cons_append, List.nil_append, List.mem_cons, List.not_mem_nil,
      or_false] at hm
    rcases hm with h | h | h | h | h <;> subst h
    · refine ⟨key_valid_userId, ?_⟩
      intro v hv x hx
      injection hv with he
      subst he
      exact h1 x hx
    · refine ⟨key_valid_platform, ?_⟩
      intro v hv x hx
      injection hv with he
      subst he
      exact h2 x hx
    · refine ⟨key_valid_timestamp, ?_⟩
      intro v hv
      simp at hv
    · refine ⟨key_valid_nonce, ?_⟩
      intro v hv x hx
      injection hv with he
      subst he
      exact h3 x hx
    · refine ⟨key_valid_scope, ?_⟩
      intro v hv x hx
      injection hv with he
      subst he
      exact h4 sc hsc x hx

theorem decodeState_encodeState (s : FlowState) (hw : wfState s) :
    decodeState (encodeState s) = .ok s := by
  unfold decodeState encodeState
  rw [b64decode_encode (dumps s) (fun b hb => by have := dumps_ascii s b hb; omega)]
  dsimp only
  rw [loads_dumps s (membersOf_good s hw)]
  dsimp only
  exact extractState_membersOf s

theorem b64charW_mem (A : List Nat) (h65 : 65 ∈ A) (n : Nat) : b64charW A n ∈ A := by
  unfold b64charW
  rcases Nat.lt_or_ge n A.length with h | h
  · rw [List.getD_eq_getElem A 65 h]
    exact List.getElem_mem h
  · rw [List.getD_eq_default A 65 h]
    exact h65

theorem b64encodeW_decomp (A : List Nat) (h65 : 65 ∈ A) :
    ∀ bs, ∃ core pad, b64encodeW A bs = core ++ List.replicate pad 61 ∧
      (∀ c ∈ core, c ∈ A) ∧ core.length = (4 * bs.length + 2) / 3 ∧
      pad = (if bs.length % 3 = 0 then 0 else 3 - bs.length % 3) := by
  intro bs
  induction bs using threeStepInduction with
  | h0 => exact ⟨[], 0, rfl, by simp, by simp, by simp⟩
  | h1 a =>
    refine ⟨[b64charW A (a / 4), b64charW A (a % 4 * 16)], 2, rfl, ?_, by simp, by simp⟩
    intro c hc
    simp at hc
    rcases hc with h | h <;> subst h <;> exact b64charW_mem A h65 _
  | h2 a b =>
    refine ⟨[b64charW A (a / 4), b64charW A (a % 4 * 16 + b / 16),
      b64charW A (b % 16 * 4)], 1, rfl, ?_, by simp, by simp⟩
    intro c hc
    simp at hc
    rcases hc with h | h | h <;> subst h <;> exact b64charW_mem A h65 _
  | h3 a b c l ih =>
    obtain ⟨core, pad, heq, hmem, hlen, hpad⟩ := ih
    refine ⟨b64charW A (a / 4) :: b64charW A (a % 4 * 16 + b / 16) ::
      b64charW A (b % 16 * 4 + c / 64) :: b64charW A (c % 64) :: core, pad, ?_, ?_, ?_, ?_⟩
    · simp only [b64encodeW, heq, List.cons_append]
    · intro x hx
      simp at hx
      rcases hx with h | h | h | h | h
      · subst h; exact b64charW_mem A h65 _
      · subst h; exact b64charW_mem A h65 _
      · subst h; exact b64charW_mem A h65 _
      · subst h; exact b64charW_mem A h65 _
      · exact hmem x h
    · simp only [List.length_cons, hlen, List.length_cons]
      omega
    · rw [hpad]
      simp only [List.length_cons]
      have hm : (l.length + 1 + 1 + 1) % 3 = l.length % 3 := by omega
      rw [hm]

theorem dropWhile_replicate_61 (k : Nat) (t : List Nat) :
    (List.replicate k 61 ++ t).dropWhile (fun c => c == 61) = t.dropWhile (fun c => c == 61) := by
  induction k with
  | zero => simp
  | succ m ih => simp [List.replicate_succ, List.dropWhile_cons, ih]

theorem rstripEq_append_replicate (core : List Nat) (k : Nat) (hc : ∀ c ∈ core, c ≠ 61) :
    rstripEq (core ++ List.replicate k 61) = core := by
  unfold rstripEq
  rw [List.reverse_append, List.reverse_replicate, dropWhile_replicate_61]
  cases hrev : core.reverse with
  | nil =>
    have : core = [] := by simpa using congrArg List.reverse hrev
    simp [this]
  | cons h t =>
    have hmem : h ∈ core := by
      have : h ∈ core.reverse := by rw [hrev]; simp
      simpa using this
    rw [List.dropWhile_cons]
    have : (h == 61) = false := by
      have := hc h hmem
      simp [this]
    rw [this]
    simp only [Bool.false_eq_true, if_false]
    rw [← hrev, List.reverse_reverse]

theorem b64alpha_65 : 65 ∈ b64alpha := by decide

theorem b64urlAlpha_65 : 65 ∈ b64urlAlpha := by decide

theorem b64alpha_no61 : ∀ c ∈ b64alpha, c ≠ 61 := by decide

theorem b64urlAlpha_no61 : ∀ c ∈ b64urlAlpha, c ≠ 61 := by decide

theorem b64urlAlpha_unreserved : ∀ c ∈ b64urlAlpha, isUnreserved c = true := by decide

theorem b64urlEncodeNoPad_eq_core (bs : List Nat) :
    ∃ core, b64urlEncodeNoPad bs = core ∧ (∀ c ∈ core, c ∈ b64urlAlpha) ∧
      core.length = (4 * bs.length + 2) / 3 := by
  obtain ⟨core, pad, heq, hmem, hlen, _⟩ := b64encodeW_decomp b64urlAlpha b64urlAlpha_65 bs
  refine ⟨core, ?_, hmem, hlen⟩
  unfold b64urlEncodeNoPad
  rw [heq, rstripEq_append_replicate core pad (fun c hc => b64urlAlpha_no61 c (hmem c hc))]

theorem b64urlEncodeNoPad_length (bs : List Nat) :
    (b64urlEncodeNoPad bs).length = (4 * bs.length + 2) / 3 := by
  obtain ⟨core, heq, _, hlen⟩ := b64urlEncodeNoPad_eq_core bs
  rw [heq, hlen]

theorem b64urlEncodeNoPad_unreserved (bs : List Nat) :
    ∀ c ∈ b64urlEncodeNoPad bs, isUnreserved c = true := by
  obtain ⟨core, heq, hmem, _⟩ := b64urlEncodeNoPad_eq_core bs
  rw [heq]
  exact fun c hc => b64urlAlpha_unreserved c (hmem c hc)

theorem encodeState_chars (s : FlowState) :
    ∀ c ∈ encodeState s, c ∈ b64alpha ∨ c = 61 := by
  obtain ⟨core, pad, heq, hmem, _, _⟩ := b64encodeW_decomp b64alpha b64alpha_65 (dumps s)
  unfold encodeState b64encode
  rw [heq]
  intro c hc
  rcases List.mem_append.mp hc with h | h
  · exact Or.inl (hmem c h)
  · exact Or.inr (List.eq_of_mem_replicate h)

theorem encodeState_pad (s : FlowState) :
    (61 ∈ encodeState s ↔ (dumps s).length % 3 ≠ 0) := by
  obtain ⟨core, pad, heq, hmem, _, hpad⟩ := b64encodeW_decomp b64alpha b64alpha_65 (dumps s)
  unfold encodeState b64encode
  rw [heq]
  constructor
  · intro hmem61
    rcases List.mem_append.mp hmem61 with h | h
    · exact absurd rfl (b64alpha_no61 61 (hmem 61 h))
    · intro h0
      rw [hpad, if_pos h0] at h
      simp at h
  · intro h0
    apply List.mem_append.mpr
    right
    rw [hpad, if_neg h0]
    have : (dumps s).length % 3 < 3 := by omega
    apply List.mem_replicate.mpr
    constructor
    · omega
    · rfl

theorem validate_error (p : Option (List Nat → Bool)) (ma now : Nat)
    (params : List (List Nat × List Nat)) (e : List Nat)
    (h : lookupParam params (strCP ("error")) = some e) :
    validateCallback p ma now params = .UserDenied e := by
  simp only [validateCallback, h]

theorem validate_missing (p : Option (List Nat → Bool)) (ma now : Nat)
    (params : List (List Nat × List Nat))
    (he : lookupParam params (strCP ("error")) = none)
    (hm : lookupParam params (strCP ("code")) = none ∨
      lookupParam params (strCP ("state")) = none) :
    validateCallback p ma now params =
      .Malformed ((if lookupParam params (strCP ("code")) = none then [strCP ("code")] else []) ++
        (if lookupParam params (strCP ("state")) = none then [strCP ("state")] else [])) := by
  simp only [validateCallback, he]
  cases hc : lookupParam params (strCP ("code")) with
  | none =>
    cases hs : lookupParam params (strCP ("state")) with
    | none => simp [hc, hs]
    | some v => simp [hc, hs]
  | some v =>
    cases hs : lookupParam params (strCP ("state")) with
    | none => simp [hc, hs]
    | some w => rcases hm with h | h <;> simp_all

theorem validate_noerr_decoded (p : Option (List Nat → Bool)) (ma now : Nat)
    (params : List (List Nat × List Nat)) (code tok : List Nat) (s : FlowState)
    (he : lookupParam params (strCP ("error")) = none)
    (hc : lookupParam params (strCP ("code")) = some code)
    (hs : lookupParam params (strCP ("state")) = some tok)
    (hd : decodeState tok = .ok s)
    (hfresh : ¬ ma < now - s.timestamp) :
    validateCallback p ma now params =
      (match p with
       | none => .Success code s
       | some pr =>
         match s.scope with
         | some sc => if pr sc then .Success code s else .Malformed [strCP ("scope-mismatch")]
         | none => .Malformed [strCP ("scope-mismatch")]) := by
  simp only [validateCallback, he, hc, hs, hd]
  rw [if_neg hfresh]

theorem decodeState_ok_fields (t : List Nat) (s : FlowState)
    (hok : decodeState t = .ok s) :
    ∃ bs ms, b64decode t = some bs ∧ loads bs = some ms ∧
      lookupJ ms (strCP ("userId")) = some (.jstr s.userId) ∧
      lookupJ ms (strCP ("platform")) = some (.jstr s.platform) ∧
      lookupJ ms (strCP ("timestamp")) = some (.jnum s.timestamp) ∧
      lookupJ ms (strCP ("nonce")) = some (.jstr s.nonce) ∧
      ((s.scope = none ∧ lookupJ ms (strCP ("scope")) = none) ∨
        (∃ sc, s.scope = some sc ∧ lookupJ ms (strCP ("scope")) = some (.jstr sc))) := by
  unfold decodeState at hok
  cases hb : b64decode t with
  | none => rw [hb] at hok; simp at hok
  | some bs =>
    rw [hb] at hok
    dsimp only at hok
    cases hl : loads bs with
    | none => rw [hl] at hok; simp at hok
    | some ms =>
      rw [hl] at hok
      dsimp only at hok
      refine ⟨bs, ms, rfl, hl, ?_⟩
      unfold extractState at hok
      cases hu : lookupJ ms (strCP ("userId")) with
      | none => rw [hu] at hok; simp at hok
      | some vu =>
        rw [hu] at hok
        cases vu with
        | jnum _ => simp at hok
        | jstr u =>
          cases hp : lookupJ ms (strCP ("platform")) with
          | none => rw [hp] at hok; simp at hok
          | some vp =>
            rw [hp] at hok
            cases vp with
            | jnum _ => simp at hok
            | jstr p =>
              cases ht : lookupJ ms (strCP ("timestamp")) with
              | none => rw [ht] at hok; simp at hok
              | some vt =>
                rw [ht] at hok
                cases vt with
                | jstr _ => simp at hok
                | jnum tt =>
                  cases hn : lookupJ ms (strCP ("nonce")) with
                  | none => rw [hn] at hok; simp at hok
                  | some vn =>
                    rw [hn] at hok
                    cases vn with
                    | jnum _ => simp at hok
                    | jstr n =>
                      cases hsc : lookupJ ms (strCP ("scope")) with
                      | none =>
                        rw [hsc] at hok
                        dsimp only at hok
                        injection hok with he2
                        subst he2
                        exact ⟨rfl, rfl, rfl, rfl, Or.inl ⟨rfl, rfl⟩⟩
                      | some vsc =>
                        rw [hsc] at hok
                        cases vsc with
                        | jnum _ => simp at hok
                        | jstr sc =>
                          dsimp only at hok
                          injection hok with he2
                          subst he2
                          exact ⟨rfl, rfl, rfl, rfl, Or.inr ⟨sc, rfl, rfl⟩⟩

theorem adwords_empty_and (sc : List Nat) :
    (!sc.isEmpty && containsSub sc (strCP ("adwords"))) = containsSub sc (strCP ("adwords")) := by
  cases sc with
  | nil => decide
  | cons a t => simp

/-- C6: for a decoded google-platform state under the adwords scope
requirement (and an error-free, code-carrying, fresh callback), the
callback condition that dispatches to the exchanger holds exactly when the
decoded `userId` is non-empty and the decoded `scope` is present and
satisfies the predicate; with `scope` omitted or unsatisfying, the
validator yields `Malformed({scope-mismatch})` and the exchanger is not
invoked. -/
theorem C6_scope_dispatch (ma now : Nat) (params : List (List Nat × List Nat))
    (code tok : List Nat) (s : FlowState)
    (he : lookupParam params (strCP ("error")) = none)
    (hc : lookupParam params (strCP ("code")) = some code)
    (hs : lookupParam params (strCP ("state")) = some tok)
    (hd : decodeState tok = .ok s)
    (hplat : s.platform = strCP ("google"))
    (hfresh : ¬ ma < now - s.timestamp) :
    (oauthCallbackCondition s = true ↔
      (s.userId ≠ [] ∧ ∃ sc, s.scope = some sc ∧ adwordsPred sc = true)) ∧
    ((∃ sc, s.scope = some sc ∧ adwordsPred sc = true) →
      validateCallback (some adwordsPred) ma now params = .Success code s) ∧
    ((s.scope = none ∨ ∀ sc, s.scope = some sc → adwordsPred sc = false) →
      validateCallback (some adwordsPred) ma now params = .Malformed [strCP ("scope-mismatch")] ∧
      dispatchesToExchanger (validateCallback (some adwordsPred) ma now params) = false ∧
      oauthCallbackCondition s = false) := by
  have hbase := validate_noerr_decoded (some adwordsPred) ma now params code tok s he hc hs hd
    hfresh
  refine ⟨?_, ?_, ?_⟩
  · unfold oauthCallbackCondition
    rw [hplat]
    cases hsc : s.scope with
    | none => simp
    | some sc =>
      dsimp only
      rw [adwords_empty_and]
      simp [adwordsPred, List.isEmpty_iff]
  · rintro ⟨sc, hsc, hp⟩
    rw [hbase]
    dsimp only
    rw [hsc]
    dsimp only
    rw [if_pos hp]
  · intro hbad
    have hval : validateCallback (some adwordsPred) ma now params =
        .Malformed [strCP ("scope-mismatch")] := by
      rw [hbase]
      dsimp only
      cases hsc : s.scope with
      | none => dsimp only
      | some sc =>
        have hp : adwordsPred sc = false := by
          rcases hbad with h | h
          · rw [h] at hsc; cases hsc
          · exact h sc hsc
        dsimp only
        rw [if_neg (by simp [hp])]
    refine ⟨hval, by rw [hval]; rfl, ?_⟩
    unfold oauthCallbackCondition
    cases hsc : s.scope with
    | none => simp
    | some sc =>
      have hp : adwordsPred sc = false := by
        rcases hbad with h | h
        · rw [h] at hsc; cases hsc
        · exact h sc hsc
      dsimp only
      rw [adwords_empty_and]
      simp [adwordsPred] at hp
      simp [hp]

/-- C1: for every valid `FlowState` (non-empty `userId`, all fields
present, `scope` optional), decoding the token produced by the state
encoder yields exactly the original state, every field equal and none
added, dropped, or defaulted: `decodeState (encodeState s) = .ok s`. -/
theorem C1_state_roundtrip (s : FlowState) (hw : wfState s) (_hu : s.userId ≠ []) :
    decodeState (encodeState s) = .ok s :=
  decodeState_encodeState s hw

theorem C1_state_roundtrip_witness :
    wfState sampleState ∧ sampleState.userId ≠ [] ∧
      decodeState (encodeState sampleState) = .ok sampleState := by
  have hw : wfState sampleState :=
    ⟨by decide, by decide, by decide, by
      intro sc hsc
      injection hsc with h
      subst h
      decide⟩
  exact ⟨hw, by decide, C1_state_roundtrip sampleState hw (by decide)⟩

/-- C2 counterexample: the state token of `cexState` contains the padding
character `=` (61) and the character `+` (43), which is outside the
URL-safe alphabet and not unreserved — so the encoder's output is neither
URL-safe nor unpadded, refuting the claim at this input. -/
theorem C2_transport_counterexample :
    61 ∈ encodeState cexState ∧ 43 ∈ encodeState cexState ∧ ¬ 43 ∈ b64urlAlpha ∧
      isUnreserved 43 = false := by decide

/-- C2 (amended): the state encoder emits standard-alphabet Base64 with
padding retained: every token character is in the standard alphabet or is
`=`, and `=` appears in the token exactly when the serialized record
length is not a multiple of three. -/
theorem C2_standard_padded (s : FlowState) :
    (∀ c ∈ encodeState s, c ∈ b64alpha ∨ c = 61) ∧
    ((dumps s).length % 3 ≠ 0 → 61 ∈ encodeState s) ∧
    ((dumps s).length % 3 = 0 → ¬ 61 ∈ encodeState s) :=
  ⟨encodeState_chars s, fun h => (encodeState_pad s).mpr h,
    fun h0 hmem => ((encodeState_pad s).mp hmem) h0⟩

theorem C2_standard_padded_witness :
    (dumps cexState).length % 3 ≠ 0 ∧ 61 ∈ encodeState cexState :=
  ⟨by decide, (C2_standard_padded cexState).2.1 (by decide)⟩

/-- C3: the state decoder classifies every failure distinctly — a failed
transport decoding is `MalformedEncoding`, bytes that are not a canonical
record are `MalformedPayload`, a record lacking `userId` (or lacking
`platform` when `userId` is present) is `MissingRequiredField` of that
name — and a successful decode carries exactly the record's fields, with
nothing defaulted. -/
theorem C3_decode_errors (t : List Nat) :
    (b64decode t = none → decodeState t = .error .MalformedEncoding) ∧
    (∀ bs, b64decode t = some bs → loads bs = none →
      decodeState t = .error .MalformedPayload) ∧
    (∀ bs ms, b64decode t = some bs → loads bs = some ms →
      lookupJ ms (strCP ("userId")) = none →
      decodeState t = .error (.MissingRequiredField (strCP ("userId")))) ∧
    (∀ bs ms u, b64decode t = some bs → loads bs = some ms →
      lookupJ ms (strCP ("userId")) = some (.jstr u) →
      lookupJ ms (strCP ("platform")) = none →
      decodeState t = .error (.MissingRequiredField (strCP ("platform")))) ∧
    (∀ s, decodeState t = .ok s → ∃ bs ms, b64decode t = some bs ∧ loads bs = some ms ∧
      lookupJ ms (strCP ("userId")) = some (.jstr s.userId) ∧
      lookupJ ms (strCP ("platform")) = some (.jstr s.platform) ∧
      lookupJ ms (strCP ("timestamp")) = some (.jnum s.timestamp) ∧
      lookupJ ms (strCP ("nonce")) = some (.jstr s.nonce) ∧
      ((s.scope = none ∧ lookupJ ms (strCP ("scope")) = none) ∨
        (∃ sc, s.scope = some sc ∧ lookupJ ms (strCP ("scope")) = some (.jstr sc)))) := by
  refine ⟨?_, ?_, ?_, ?_, fun s hok => decodeState_ok_fields t s hok⟩
  · intro h
    simp only [decodeState, h]
  · intro bs h1 h2
    simp only [decodeState, h1, h2]
  · intro bs ms h1 h2 h3
    simp only [decodeState, h1, h2, extractState, h3]
  · intro bs ms u h1 h2 h3 h4
    simp only [decodeState, h1, h2, extractState, h3, h4]

theorem C3_decode_errors_witness :
    decodeState (strCP ("ab")) = .error .MalformedEncoding ∧
    decodeState (b64encode (strCP ("notjson"))) = .error .MalformedPayload ∧
    decodeState (b64encode (strCP ("\x7b\x7d"))) =
      .error (.MissingRequiredField (strCP ("userId"))) :=
  ⟨(C3_decode_errors (strCP ("ab"))).1 (by decide),
   (C3_decode_errors (b64encode (strCP ("notjson")))).2.1 (strCP ("notjson")) (by decide)
     (by decide),
   (C3_decode_errors (b64encode (strCP ("\x7b\x7d")))).2.2.1 (strCP ("\x7b\x7d")) []
     (by decide) (by decide) (by decide)⟩

/-- C4: for every verifier of valid length, the PKCE challenge equals the
unpadded URL-safe Base64 of the verifier's SHA-256, and the challenge is a
pure function of the verifier alone: every `generate_pkce` run that
produces this verifier produces the identical challenge. -/
theorem C4_pkce_challenge (v : List Nat) (_h1 : 43 ≤ v.length) (_h2 : v.length ≤ 128) :
    deriveChallenge v = b64urlEncodeNoPad (sha256 v) ∧
    (∀ rb, (generate_pkce rb).1 = v → (generate_pkce rb).2 = deriveChallenge v) := by
  refine ⟨rfl, ?_⟩
  intro rb hv
  unfold generate_pkce at hv ⊢
  dsimp only at hv ⊢
  rw [hv]
  rfl

theorem C4_pkce_challenge_witness :
    43 ≤ (generate_pkce rbSample).1.length ∧ (generate_pkce rbSample).1.length ≤ 128 ∧
      (generate_pkce rbSample).2 = deriveChallenge (generate_pkce rbSample).1 :=
  ⟨by decide, by decide,
    (C4_pkce_challenge (generate_pkce rbSample).1 (by decide) (by decide)).2 rbSample rfl⟩

/-- C5: a callback carrying an `error` parameter is classified
`UserDenied(error)` no matter what other parameters (including a `code`)
are present, and the exchanger is not dispatched. -/
theorem C5_error_precedence (p : Option (List Nat → Bool)) (ma now : Nat)
    (params : List (List Nat × List Nat)) (e : List Nat)
    (h : lookupParam params (strCP ("error")) = some e) :
    validateCallback p ma now params = .UserDenied e ∧
      dispatchesToExchanger (validateCallback p ma now params) = false := by
  have hv := validate_error p ma now params e h
  exact ⟨hv, by rw [hv]; rfl⟩

theorem C5_error_precedence_witness :
    validateCallback (some adwordsPred) 3600 1759754919 errParams =
      .UserDenied (strCP ("access_denied")) ∧
    dispatchesToExchanger (validateCallback (some adwordsPred) 3600 1759754919 errParams) =
      false :=
  C5_error_precedence (some adwordsPred) 3600 1759754919 errParams
    (strCP ("access_denied")) (by decide)

/-- C7: a callback with no `error` parameter in which `code` or `state`
is absent is `Malformed` carrying exactly the missing names, and the
exchanger is not dispatched. -/
theorem C7_missing_fields (p : Option (List Nat → Bool)) (ma now : Nat)
    (params : List (List Nat × List Nat))
    (he : lookupParam params (strCP ("error")) = none)
    (hm : lookupParam params (strCP ("code")) = none ∨
      lookupParam params (strCP ("state")) = none) :
    validateCallback p ma now params =
      .Malformed ((if lookupParam params (strCP ("code")) = none then [strCP ("code")] else []) ++
        (if lookupParam params (strCP ("state")) = none then [strCP ("state")] else [])) ∧
    dispatchesToExchanger (validateCallback p ma now params) = false := by
  have hv := validate_missing p ma now params he hm
  exact ⟨hv, by rw [hv]; rfl⟩

theorem C7_missing_fields_witness :
    validateCallback (some adwordsPred) 3600 1759754919 stateOnlyParams =
      .Malformed [strCP ("code")] := by
  have h := (C7_missing_fields (some adwordsPred) 3600 1759754919 stateOnlyParams
    (by decide) (Or.inl (by decide))).1
  exact h.trans (by decide)

/-- C8: the token exchanger issues exactly one request; a transport
failure is `networkFailure`, a 400-class response whose error body carries
`invalid_grant` (the already-consumed-code case) is `invalidGrant`, any
other non-2xx response is `unexpectedStatus`, and the outcome depends only
on the first (and only) response — no retry. -/
theorem C8_exchange_classification (provider : Nat → ProviderResponse) (st : Nat)
    (ef : Option (List Nat)) (body e : List Nat) :
    (tokenExchange provider).1 = 1 ∧
    (provider 0 = .transportFailure → (tokenExchange provider).2 = .networkFailure) ∧
    (provider 0 = .httpResponse st ef body → 400 ≤ st → st < 500 → ef = some e →
      containsSub e (strCP ("invalid_grant")) = true →
      (tokenExchange provider).2 = .invalidGrant) ∧
    (provider 0 = .httpResponse st ef body → ¬ (200 ≤ st ∧ st < 300) →
      ¬ ((400 ≤ st ∧ st < 500) ∧ (match ef with
          | some x => containsSub x (strCP ("invalid_grant"))
          | none => false) = true) →
      (tokenExchange provider).2 = .unexpectedStatus st) ∧
    (∀ p2 : Nat → ProviderResponse, p2 0 = provider 0 →
      tokenExchange p2 = tokenExchange provider) := by
  refine ⟨rfl, ?_, ?_, ?_, ?_⟩
  · intro h
    show classifyExchange (provider 0) = .networkFailure
    rw [h]
    rfl
  · intro h h4 h5 hef hig
    show classifyExchange (provider 0) = .invalidGrant
    rw [h]
    unfold classifyExchange
    dsimp only
    rw [if_neg (by omega), if_pos ⟨⟨h4, h5⟩, by rw [hef]; exact hig⟩]
  · intro h h2xx hbad
    show classifyExchange (provider 0) = .unexpectedStatus st
    rw [h]
    unfold classifyExchange
    dsimp only
    rw [if_neg h2xx, if_neg hbad]
  · intro p2 h
    unfold tokenExchange
    rw [h]

theorem C8_exchange_classification_witness :
    (tokenExchange exchProvider).1 = 1 ∧ (tokenExchange exchProvider).2 = .invalidGrant :=
  ⟨(C8_exchange_classification exchProvider 400 (some (strCP ("invalid_grant"))) []
      (strCP ("invalid_grant"))).1,
   (C8_exchange_classification exchProvider 400 (some (strCP ("invalid_grant"))) []
      (strCP ("invalid_grant"))).2.2.1 rfl (by omega) (by omega) rfl (by decide)⟩

/-- C9: every verifier `generate_pkce` produces from the 32 random bytes
has exactly 43 characters — within the 43–128 PKCE bounds — all drawn
from the unreserved URL alphabet. -/
theorem C9_verifier_length (rb : List Nat) (h : rb.length = 32) :
    (generate_pkce rb).1.length = 43 ∧ 43 ≤ (generate_pkce rb).1.length ∧
      (generate_pkce rb).1.length ≤ 128 ∧
      ∀ c ∈ (generate_pkce rb).1, isUnreserved c = true := by
  have hl : (generate_pkce rb).1.length = 43 := by
    show (b64urlEncodeNoPad rb).length = 43
    rw [b64urlEncodeNoPad_length, h]
  exact ⟨hl, by omega, by omega, fun c hc => b64urlEncodeNoPad_unreserved rb c hc⟩

theorem C9_verifier_length_witness :
    rbSample.length = 32 ∧ (generate_pkce rbSample).1.length = 43 :=
  ⟨by decide, (C9_verifier_length rbSample (by decide)).1⟩

/-- C10: the state encoder is deterministic — the token depends only on
the field contents of the `FlowState`, so two states with equal fields
encode to the identical token. -/
theorem C10_encode_deterministic (s1 s2 : FlowState)
    (h1 : s1.userId = s2.userId) (h2 : s1.platform = s2.platform)
    (h3 : s1.timestamp = s2.timestamp) (h4 : s1.nonce = s2.nonce)
    (h5 : s1.scope = s2.scope) :
    encodeState s1 = encodeState s2 := by
  obtain ⟨u1, p1, t1, n1, sc1⟩ := s1
  obtain ⟨u2, p2, t2, n2, sc2⟩ := s2
  simp only at h1 h2 h3 h4 h5
  subst h1
  subst h2
  subst h3
  subst h4
  subst h5
  rfl

theorem C10_encode_deterministic_witness :
    encodeState sampleState = encodeState sampleStateB :=
  C10_encode_deterministic sampleState sampleStateB (by decide) (by decide) (by decide)
    (by decide) (by decide)

theorem C6_scope_dispatch_witness :
    oauthCallbackCondition sampleState = true ∧
    validateCallback (some adwordsPred) 3600 1759754919 googleParams =
      .Success (strCP ("4/0AX4Xtest")) sampleState ∧
    validateCallback (some adwordsPred) 3600 1759754919 noScopeParams =
      .Malformed [strCP ("scope-mismatch")] ∧
    oauthCallbackCondition noScopeState = false := by
  have h1 := C6_scope_dispatch 3600 1759754919 googleParams (strCP ("4/0AX4Xtest"))
    (encodeState sampleState) sampleState (by decide) (by decide) (by decide) (by decide)
    (by decide) (by decide)
  have h2 := C6_scope_dispatch 3600 1759754919 noScopeParams (strCP ("4/0AX4Xtest"))
    (encodeState noScopeState) noScopeState (by decide) (by decide) (by decide) (by decide)
    (by decide) (by decide)
  have hok := h2.2.2 (Or.inl (by decide))
  refine ⟨h1.1.mpr ⟨by decide, strCP ("https://www.googleapis.com/auth/adwords"), by decide,
      by decide⟩,
    h1.2.1 ⟨strCP ("https://www.googleapis.com/auth/adwords"), by decide, by decide⟩,
    hok.1, hok.2.2⟩
